import Mathlib

set_option maxRecDepth 10000

/-!
Shallow embedding of the concurrent-programming homework repository
(hazard-pointer registry, split-ordered hash map, lock-coupling ordered
list set) together with proofs and refutations of the specification
claims.

Conventions of the embedding:
* Machine words (`usize`) are modelled as `Nat`, with an explicit
  `% 2 ^ 64` (or an explicit overflow-panic branch, matching the checked
  arithmetic of the debug profile under which the repository's tests run)
  at exactly the operations of the source that can overflow.  Atomic
  `fetch_add`/`fetch_sub` always wrap in Rust, so they are modelled as
  wrapping: increment as `(c + 1) % 2 ^ 64`, decrement as
  `if c = 0 then 2 ^ 64 - 1 else c - 1`.
* Pointers are modelled as abstract addresses (`Nat`); an intrusive
  linked chain is modelled as the `List` of its nodes in chain order.
* Side-effecting loops are modelled with an explicit fuel argument; a
  result of `none` means the loop has not terminated within the given
  fuel.
* Results of calls into external collaborator crates (the Harris list's
  cursor operations, which are not part of this repository) are passed
  in as explicit oracle parameters, constrained only by the
  collaborator's interface type.
-/

namespace OrderedListSet

/-- Embedding of `Cursor::find` of `list_set.rs`.  The set's chain is the
list of node data in link order; the cursor is the link the guard
protects.  `cursor_find l key` walks from the given link and returns
`(found, passed, suffix)` where `passed` is the list of nodes the cursor
moved past and `suffix` is the chain hanging off the final cursor
position, so that `l = passed ++ suffix`.  The walk stops with `true`
when the current node's data equals `key`, with `false` when it is
greater than `key` or the chain ends; otherwise it advances. -/
def cursor_find {α : Type} [LinearOrder α] : List α → α → Bool × List α × List α
  | [], _ => (false, [], [])
  | x :: xs, key =>
    if x = key then (true, [], x :: xs)
    else if x > key then (false, [], x :: xs)
    else
      ((cursor_find xs key).1, x :: (cursor_find xs key).2.1, (cursor_find xs key).2.2)

/-- Embedding of `OrderedListSet::contains`: run `find` from the head and
return the boolean. -/
def contains {α : Type} [LinearOrder α] (l : List α) (key : α) : Bool :=
  (cursor_find l key).1

/-- Embedding of `OrderedListSet::insert`: if `find` reports the key
present, return it back as `Err`; otherwise splice a new node at the
cursor (its `next` is the old cursor target). -/
def insert {α : Type} [LinearOrder α] (l : List α) (key : α) : Except α (List α) :=
  let r := cursor_find l key
  if r.1 then .error key
  else .ok (r.2.1 ++ key :: r.2.2)

/-- Result of `OrderedListSet::remove`: the moved-out data and the
remaining chain, the absent report, or a panic of one of the two
`assert!`s at the start of the found branch. -/
inductive RemoveOutcome (α : Type) where
  | ok (data : α) (rest : List α)
  | absent
  | panicked
  deriving DecidableEq

/-- Embedding of `OrderedListSet::remove`: run `find`; in the found
branch first `assert!(!(*guard).is_null())`, then
`assert!((**guard).data == key)`, then unlink the target node and move
its data out. -/
def remove {α : Type} [LinearOrder α] (l : List α) (key : α) : RemoveOutcome α :=
  let r := cursor_find l key
  if r.1 then
    match r.2.2 with
    | x :: rest => if x = key then .ok x (r.2.1 ++ rest) else .panicked
    | [] => .panicked
  else .absent

end OrderedListSet

namespace HazardPointer

/-- Embedding of `HazardSlot` of `hazard.rs`: only the mutable fields;
the immutable `next` link is represented by the position of the slot in
the chain list. -/
structure HazardSlot where
  active : Bool
  hazard : Nat
  deriving DecidableEq

/-- Model of `HashSet::insert`, the hash set being a duplicate-free
list. -/
def insert_hash (h : Nat) (acc : List Nat) : List Nat :=
  if h ∈ acc then acc else h :: acc

/-- Embedding of the `while !curr_p.is_null()` loop of
`HazardBag::all_hazards`, with explicit fuel.  Faithful to the source,
the body reads the current slot and inserts its hazard when `active`,
and the loop variable `curr_p` is never advanced, so the recursive call
receives the same chain position.  `none` means the fuel ran out with
the loop still running. -/
def all_hazards_loop : Nat → List HazardSlot → List Nat → Option (List Nat)
  | 0, _, _ => none
  | _ + 1, [], acc => some acc
  | fuel + 1, slot :: rest, acc =>
    all_hazards_loop fuel (slot :: rest)
      (if slot.active then insert_hash slot.hazard acc else acc)

/-- Embedding of `HazardBag::all_hazards`: start the walk at `head` with
an empty set. -/
def all_hazards (fuel : Nat) (chain : List HazardSlot) : Option (List Nat) :=
  all_hazards_loop fuel chain []

/-- One iteration of the append loop of `HazardBag::acquire_slot`, with
slots named by their addresses.  `chain` is the slot chain at the
`head.load`; `interf` are the slots other threads push between the load
and the `compare_exchange`; `newId` is the address of the freshly boxed
slot.  Returns `(returned, chain2, freed)`: the slot the call returns
(if the CAS succeeded), the chain the CAS acted on, and the address the
iteration passes to `Box::from_raw`/`drop`.  Faithful to the source, the
failure arm frees `e`, the value carried by `Err(e)`, which is the
current head observed by the failed `compare_exchange`. -/
def acquire_append_iter (chain interf : List Nat) (newId : Nat) :
    Option Nat × List Nat × Option Nat :=
  let observed := chain.head?
  let chain2 := interf ++ chain
  if chain2.head? = observed then (some newId, newId :: chain2, none)
  else (none, chain2, chain2.head?)

/-- Outcome of `Shield::drop`. -/
inductive DropOutcome where
  | panicked (msg : String)
  | returned (slot : HazardSlot)
  deriving DecidableEq

/-- Embedding of `Shield::drop` of `hazard.rs`.  The body of the source
is the single macro call `todo!()`, which panics with
"not yet implemented" before touching the slot. -/
def shield_drop (_slot : HazardSlot) : DropOutcome :=
  .panicked "not yet implemented"

/-- The thread-local state `Shield::try_protect` acts on: the slot's
published hazard word and the caller's pointer variable `*pointer`
(pointers as addresses). -/
structure TPState where
  hazardSlot : Nat
  pointer : Nat
  deriving DecidableEq

/-- Step 1 of `Shield::try_protect`: `slot.hazard.store(ptr as usize)`. -/
def try_protect_step1 (st : TPState) : TPState :=
  { st with hazardSlot := st.pointer }

/-- Embedding of `Shield::try_protect`: store `*pointer` into the slot,
reload `src` (its value at the load is `srcVal`), and either validate
(return `true`, slot unchanged) or update `*pointer` to the loaded
value, clear the slot to 0 and return `false`. -/
def try_protect (st : TPState) (srcVal : Nat) : Bool × TPState :=
  let st1 := try_protect_step1 st
  let loaded := srcVal
  if loaded = st1.pointer then (true, st1)
  else (false, { hazardSlot := 0, pointer := loaded })

end HazardPointer

namespace SplitOrdered

/-- The modulus `2 ^ 64` of `usize` arithmetic on the 64-bit targets the
homework runs on. -/
def U64 : Nat := Nat.pow 2 64

/-- Embedding of `usize::leading_zeros` on a 64-bit word: the number of
bit positions `63 - i` (scanning from the most significant bit) that lie
above every set bit of `k`, i.e. the number of `i < 64` with
`k < 2 ^ (63 - i)`. -/
def leading_zeros (k : Nat) : Nat :=
  (List.range 64).countP (fun i => decide (k < 2 ^ (63 - i)))

/-- Embedding of `SplitOrderedList::assert_valid_key`:
`assert!(key.leading_zeros() != 0)`.  Returns `true` when the assertion
passes. -/
def assert_valid_key (k : Nat) : Bool :=
  decide (leading_zeros k ≠ 0)

/-- Embedding of `usize::reverse_bits` on a 64-bit word: bit `j` of the
input becomes bit `63 - j` of the result. -/
def reverseBits64 (n : Nat) : Nat :=
  (List.range 64).foldl (fun acc j => 2 * acc + n / 2 ^ j % 2) 0

/-- The ordering key the implementation computes for a data node with
key `k`: `key.reverse_bits() + 1`, as in `SplitOrderedList::find` and
`SplitOrderedList::insert`. -/
def data_ordering_key (k : Nat) : Nat := reverseBits64 k + 1

/-- The ordering key the implementation computes for bucket `i`'s
sentinel: `index.reverse_bits()`, as in
`SplitOrderedList::lookup_bucket`. -/
def sentinel_ordering_key (i : Nat) : Nat := reverseBits64 i

/-- Modelled from the spec: the specified ordering key of a regular item
with key `k` is `bitreverse(k) | 1` (bitwise or with 1). -/
def spec_data_ordering_key (k : Nat) : Nat := reverseBits64 k ||| 1

/-- The two counters of `SplitOrderedList`; the list contents live in
the external collaborator and are reflected through oracles. -/
structure SOLState where
  size : Nat
  count : Nat
  deriving DecidableEq

/-- Embedding of `SplitOrderedList::default`: `size = 2`, `count = 0`. -/
def sol_init : SOLState := { size := 2, count := 0 }

/-- Outcome of one map operation: the precondition assertion fired, some
later arithmetic or `unwrap` panicked, or the operation returned
normally.  Every constructor carries the counter state left behind. -/
inductive SOLOutcome (α : Type) where
  | assertFailed (s : SOLState)
  | panicked (s : SOLState)
  | ok (a : α) (s : SOLState)
  deriving DecidableEq

/-- The counter state an operation leaves behind. -/
def state_after {α : Type} : SOLOutcome α → SOLState
  | .assertFailed s => s
  | .panicked s => s
  | .ok _ s => s

/-- Whether the operation died on the `assert_valid_key` assertion. -/
def is_assert_failure {α : Type} : SOLOutcome α → Bool
  | .assertFailed _ => true
  | _ => false

/-- Embedding of `SplitOrderedList::lookup`.  `found` is the boolean of
the internal `find` (an oracle for the external list walk) and
`lookupRes` the collaborator cursor's `lookup()` result,
`Option<&Option<V>>` with `None` meaning a sentinel value. -/
def sol_lookup (k : Nat) (s : SOLState) (found : Bool)
    (lookupRes : Option (Option Nat)) : SOLOutcome (Option Nat) :=
  if assert_valid_key k = false then .assertFailed s
  else if found then
    match lookupRes with
    | none => .ok none s
    | some none => .ok none s
    | some (some v) => .ok (some v) s
  else .ok none s

/-- Embedding of `SplitOrderedList::insert`.  `found` is the `find`
oracle; `insertOk` is whether the collaborator `cursor.insert` succeeds
(the source calls `.unwrap()` on it, so failure panics); `casOk` is
whether the `compare_exchange` that doubles `size` succeeds.  The
`fetch_add` on `count` wraps; the local `prev_count + 1` and
`size * LOAD_FACTOR` are checked (debug-profile) arithmetic and panic on
overflow, `size * LOAD_FACTOR` being evaluated inside the threshold
condition. -/
def sol_insert (k : Nat) (s : SOLState) (found insertOk casOk : Bool) :
    SOLOutcome (Except Unit Unit) :=
  if assert_valid_key k = false then .assertFailed s
  else if found then .ok (.error ()) s
  else if insertOk = false then .panicked { s with count := (s.count + 1) % U64 }
  else if U64 ≤ s.count + 1 then .panicked { s with count := (s.count + 1) % U64 }
  else if U64 ≤ s.size * 2 then .panicked { s with count := (s.count + 1) % U64 }
  else if s.size * 2 < s.count + 1 then
    if casOk then .ok (.ok ()) { size := s.size * 2, count := (s.count + 1) % U64 }
    else .ok (.ok ()) { s with count := (s.count + 1) % U64 }
  else .ok (.ok ()) { s with count := (s.count + 1) % U64 }

/-- Embedding of `SplitOrderedList::delete`.  `found` is the `find`
oracle and `delRes` the collaborator cursor's `delete()` result
(`Ok(&Option<V>)` or a contention failure).  Faithful to the source, the
`fetch_sub` on `count` happens before the cursor delete is attempted,
and a failed or sentinel-valued delete still returns `Err(())` with the
counter already decremented (the `fetch_sub` wraps). -/
def sol_delete (k : Nat) (s : SOLState) (found : Bool)
    (delRes : Except Unit (Option Nat)) : SOLOutcome (Except Unit Nat) :=
  if assert_valid_key k = false then .assertFailed s
  else if found then
    match delRes with
    | .ok (some v) => .ok (.ok v) { s with count := if s.count = 0 then U64 - 1 else s.count - 1 }
    | .ok none => .ok (.error ()) { s with count := if s.count = 0 then U64 - 1 else s.count - 1 }
    | .error _ => .ok (.error ()) { s with count := if s.count = 0 then U64 - 1 else s.count - 1 }
  else .ok (.error ()) s

/-- One sequential operation on the map, with the collaborator oracles
recorded in the operation. -/
inductive SOLOp where
  | lookup (k : Nat) (found : Bool) (res : Option (Option Nat))
  | insert (k : Nat) (found insertOk casOk : Bool)
  | delete (k : Nat) (found : Bool) (delRes : Except Unit (Option Nat))

/-- The counter state after one operation. -/
def sol_step (s : SOLState) : SOLOp → SOLState
  | .lookup k f r => state_after (sol_lookup k s f r)
  | .insert k f io co => state_after (sol_insert k s f io co)
  | .delete k f dr => state_after (sol_delete k s f dr)

/-- The state reached from `SplitOrderedList::default` by a sequence of
operations. -/
def sol_run (ops : List SOLOp) : SOLState :=
  ops.foldl sol_step sol_init

end SplitOrdered

namespace OrderedListSet

theorem cursor_find_decomp {α : Type} [LinearOrder α] (l : List α) (key : α) :
    (cursor_find l key).2.1 ++ (cursor_find l key).2.2 = l := by
  induction l with
  | nil => simp [cursor_find]
  | cons x xs ih =>
    by_cases h1 : x = key
    · simp [cursor_find, h1]
    · by_cases h2 : x > key
      · simp [cursor_find, h1, h2]
      · simp [cursor_find, h1, h2, ih]

theorem cursor_find_passed_lt {α : Type} [LinearOrder α] (l : List α) (key : α) :
    ∀ x ∈ (cursor_find l key).2.1, x < key := by
  induction l with
  | nil => simp [cursor_find]
  | cons x xs ih =>
    by_cases h1 : x = key
    · simp [cursor_find, h1]
    · by_cases h2 : x > key
      · simp [cursor_find, h1, h2]
      · have hx : x < key := lt_of_le_of_ne (not_lt.mp h2) h1
        simp only [cursor_find, if_neg h1, if_neg h2]
        intro y hy
        rcases List.mem_cons.mp hy with hy | hy
        · exact hy ▸ hx
        · exact ih y hy

theorem cursor_find_found_head {α : Type} [LinearOrder α] (l : List α) (key : α)
    (h : (cursor_find l key).1 = true) :
    ∃ rest, (cursor_find l key).2.2 = key :: rest := by
  induction l with
  | nil => simp [cursor_find] at h
  | cons x xs ih =>
    by_cases h1 : x = key
    · exact ⟨xs, by simp [cursor_find, h1]⟩
    · by_cases h2 : x > key
      · simp [cursor_find, h1, h2] at h
      · simp only [cursor_find, if_neg h1, if_neg h2] at h ⊢
        exact ih h

theorem cursor_find_found_mem {α : Type} [LinearOrder α] (l : List α) (key : α)
    (h : (cursor_find l key).1 = true) : key ∈ l := by
  obtain ⟨rest, hr⟩ := cursor_find_found_head l key h
  have hd := cursor_find_decomp l key
  rw [hr] at hd
  rw [← hd]
  exact List.mem_append.mpr (Or.inr (List.mem_cons_self key rest))

theorem cursor_find_at_insertion {α : Type} [LinearOrder α] (p s : List α) (key : α)
    (hp : ∀ x ∈ p, x < key) :
    cursor_find (p ++ key :: s) key = (true, p, key :: s) := by
  induction p with
  | nil => simp [cursor_find]
  | cons x xs ih =>
    have hx : x < key := hp x (List.mem_cons_self x xs)
    have h1 : ¬(x = key) := ne_of_lt hx
    have h2 : ¬(x > key) := not_lt.mpr (le_of_lt hx)
    have ih2 := ih (fun y hy => hp y (List.mem_cons_of_mem x hy))
    simp [cursor_find, if_neg h1, if_neg h2, List.append_eq, ih2]

/-- C9: on an `OrderedListSet` not containing `key`, `insert` returns
`Ok` and splices the key in; a subsequent `contains` returns `true`; a
subsequent `remove` succeeds, hands back the very value that was
inserted, and restores the original list. -/
theorem insert_contains_remove_roundtrip {α : Type} [LinearOrder α] (l : List α) (key : α)
    (hmem : key ∉ l) :
    ∃ l₂, OrderedListSet.insert l key = .ok l₂ ∧
      OrderedListSet.contains l₂ key = true ∧
      OrderedListSet.remove l₂ key = .ok key l := by
  have hf : (cursor_find l key).1 = false := by
    cases h : (cursor_find l key).1
    · rfl
    · exact absurd (cursor_find_found_mem l key h) hmem
  have hpos := cursor_find_at_insertion (cursor_find l key).2.1 (cursor_find l key).2.2 key
    (cursor_find_passed_lt l key)
  refine ⟨(cursor_find l key).2.1 ++ key :: (cursor_find l key).2.2, ?_, ?_, ?_⟩
  · simp [OrderedListSet.insert, hf]
  · simp [OrderedListSet.contains, hpos]
  · simp [OrderedListSet.remove, hpos, cursor_find_decomp l key]

/-- Witness for C9 at the concrete set `{1, 3}` and key `2`. -/
theorem insert_contains_remove_roundtrip_witness :
    (2 ∉ [1, 3]) ∧
      ∃ l₂, OrderedListSet.insert [1, 3] 2 = .ok l₂ ∧
        OrderedListSet.contains l₂ 2 = true ∧
        OrderedListSet.remove l₂ 2 = .ok 2 [1, 3] :=
  ⟨by decide, insert_contains_remove_roundtrip [1, 3] 2 (by decide)⟩

/-- C10: whenever the internal `find` reports `found`, the cursor's
target is non-null and its data equals the key (the suffix at the cursor
starts with the key), so `remove` never trips either of the two
assertions of its found branch. -/
theorem find_found_target_sound {α : Type} [LinearOrder α] (l : List α) (key : α) :
    ((cursor_find l key).1 = true → (cursor_find l key).2.2.head? = some key) ∧
      OrderedListSet.remove l key ≠ .panicked := by
  constructor
  · intro h
    obtain ⟨rest, hr⟩ := cursor_find_found_head l key h
    simp [hr]
  · unfold OrderedListSet.remove
    cases h : (cursor_find l key).1
    · simp [h]
    · obtain ⟨rest, hr⟩ := cursor_find_found_head l key h
      simp [h, hr]

/-- Witness for C10 at the concrete set `{1, 2}` and key `2`. -/
theorem find_found_target_sound_witness :
    (cursor_find [1, 2] 2).2.2.head? = some 2 ∧
      OrderedListSet.remove [1, 2] 2 ≠ .panicked :=
  ⟨(find_found_target_sound [1, 2] 2).1 (by decide), (find_found_target_sound [1, 2] 2).2⟩

end OrderedListSet

namespace HazardPointer

theorem all_hazards_loop_stuck (fuel : Nat) (slot : HazardSlot) (rest : List HazardSlot)
    (acc : List Nat) : all_hazards_loop fuel (slot :: rest) acc = none := by
  induction fuel generalizing acc with
  | zero => rfl
  | succ n ih => exact ih _

/-- C1 (refutation): on every bag whose chain is non-empty, the
`all_hazards` walk never terminates, whatever the fuel: the loop body of
the source never advances `curr_p`, so the walk never reaches the end of
the chain. -/
theorem all_hazards_diverges_on_nonempty (fuel : Nat) (slot : HazardSlot)
    (rest : List HazardSlot) : all_hazards fuel (slot :: rest) = none :=
  all_hazards_loop_stuck fuel slot rest []

/-- C2 (refutation): concrete failed-CAS iteration of `acquire_slot`.
The chain is `[3]`; slot `7` is appended concurrently between the head
load and the CAS; the new slot is `9`.  The CAS fails and the iteration
frees address `7` — the current head of the chain — while the newly
constructed slot `9` is not the one freed. -/
theorem acquire_slot_cas_failure_frees_chain_slot :
    acquire_append_iter [3] [7] 9 = (none, [7, 3], some 7) ∧
      7 ∈ [7, 3] ∧ some 7 ≠ some 9 := by
  refine ⟨by rfl, by decide, by decide⟩

/-- C3 (refutation): `Shield::drop` is the stub `todo!()`; dropping any
shield panics with "not yet implemented" and in particular neither
clears the slot's hazard word nor deactivates the slot. -/
theorem shield_drop_always_panics (slot : HazardSlot) :
    shield_drop slot = .panicked "not yet implemented" := rfl

/-- C5: `try_protect` first stores the pointer into the slot; then, if
the reloaded source equals the pointer, it returns `true` with the slot
still holding the pointer, and otherwise it updates the pointer to the
loaded value, clears the slot to 0 and returns `false`. -/
theorem try_protect_spec (st : TPState) (srcVal : Nat) :
    (try_protect_step1 st).hazardSlot = st.pointer ∧
      try_protect st srcVal =
        if srcVal = st.pointer then
          (true, { hazardSlot := st.pointer, pointer := st.pointer })
        else (false, { hazardSlot := 0, pointer := srcVal }) := by
  refine ⟨rfl, ?_⟩
  unfold try_protect try_protect_step1
  by_cases h : srcVal = st.pointer <;> simp [h]

end HazardPointer

namespace SplitOrdered

theorem two_mul_lor_one (m : Nat) : 2 * m ||| 1 = 2 * m + 1 := by
  apply Nat.eq_of_testBit_eq
  intro i
  cases i with
  | zero =>
    rw [Nat.testBit_lor, Nat.testBit_zero, Nat.testBit_zero, Nat.testBit_zero]
    have h1 : 2 * m % 2 = 0 := by omega
    have h2 : (2 * m + 1) % 2 = 1 := by omega
    rw [h1, h2]
    decide
  | succ j =>
    rw [Nat.testBit_lor, Nat.testBit_succ, Nat.testBit_succ, Nat.testBit_succ]
    have h1 : 2 * m / 2 = m := by omega
    have h2 : (2 * m + 1) / 2 = m := by omega
    have h3 : (1 : Nat) / 2 = 0 := by norm_num
    rw [h1, h2, h3, Nat.zero_testBit, Bool.or_false]

theorem lor_one_of_even (m : Nat) (h : m % 2 = 0) : m ||| 1 = m + 1 := by
  have hm : m = 2 * (m / 2) := by omega
  rw [hm]
  exact two_mul_lor_one (m / 2)

theorem reverseBits64_low_bit (k : Nat) (hk : k < 2 ^ 63) : reverseBits64 k % 2 = 0 := by
  unfold reverseBits64
  have h64 : (64 : Nat) = 63 + 1 := rfl
  rw [h64, List.range_succ, List.foldl_append]
  simp only [List.foldl_cons, List.foldl_nil]
  rw [Nat.div_eq_of_lt hk]
  omega

/-- C6: for every key `k` with the leading bit clear, the ordering key
the implementation computes for a data node, `k.reverse_bits() + 1`,
equals the specified `bitreverse(k) | 1`; and the ordering key the
implementation computes for bucket `i`'s sentinel is exactly
`bitreverse(i)`. -/
theorem ordering_keys_match_spec (k : Nat) (hk : k < 2 ^ 63) :
    data_ordering_key k = spec_data_ordering_key k ∧
      ∀ i, sentinel_ordering_key i = reverseBits64 i := by
  refine ⟨?_, fun i => rfl⟩
  unfold data_ordering_key spec_data_ordering_key
  exact (lor_one_of_even (reverseBits64 k) (reverseBits64_low_bit k hk)).symm

/-- Witness for C6 at the concrete key `5`. -/
theorem ordering_keys_match_spec_witness :
    (5 < 2 ^ 63) ∧
      (data_ordering_key 5 = spec_data_ordering_key 5 ∧
        ∀ i, sentinel_ordering_key i = reverseBits64 i) :=
  ⟨by decide, ordering_keys_match_spec 5 (by decide)⟩

theorem sol_step_size_preserved_or_doubled (s : SOLState) (op : SOLOp) :
    (sol_step s op).size = s.size ∨ (sol_step s op).size = 2 * s.size := by
  cases op with
  | lookup k f r =>
    left
    show (state_after (sol_lookup k s f r)).size = s.size
    unfold sol_lookup
    cases h : assert_valid_key k <;> cases f <;>
      rcases r with _ | (_ | v) <;> rfl
  | insert k f io co =>
    show (state_after (sol_insert k s f io co)).size = s.size ∨
      (state_after (sol_insert k s f io co)).size = 2 * s.size
    unfold sol_insert
    cases h : assert_valid_key k
    · left; rfl
    · cases f
      · cases io
        · left; rfl
        · by_cases h4 : U64 ≤ s.count + 1
          · left; rw [if_pos h4]; rfl
          · rw [if_neg h4]
            by_cases h5 : U64 ≤ s.size * 2
            · left; rw [if_pos h5]; rfl
            · rw [if_neg h5]
              by_cases h6 : s.size * 2 < s.count + 1
              · rw [if_pos h6]
                cases co
                · left; rfl
                · right
                  show s.size * 2 = 2 * s.size
                  omega
              · left; rw [if_neg h6]; rfl
      · left; rfl
  | delete k f dr =>
    left
    show (state_after (sol_delete k s f dr)).size = s.size
    unfold sol_delete
    cases h : assert_valid_key k <;> cases f <;>
      rcases dr with e | (_ | v) <;> rfl

theorem sol_run_size_pow (ops : List SOLOp) :
    ∃ m, (sol_run ops).size = 2 ^ (m + 1) := by
  unfold sol_run
  suffices h : ∀ s : SOLState, (∃ m, s.size = 2 ^ (m + 1)) →
      ∃ m, (ops.foldl sol_step s).size = 2 ^ (m + 1) by
    exact h sol_init ⟨0, rfl⟩
  induction ops with
  | nil => exact fun s hs => hs
  | cons op rest ih =>
    intro s hs
    obtain ⟨m, hm⟩ := hs
    refine ih (sol_step s op) ?_
    rcases sol_step_size_preserved_or_doubled s op with h2 | h2
    · exact ⟨m, by rw [h2, hm]⟩
    · exact ⟨m + 1, by rw [h2, hm]; ring⟩

/-- C7: in every state reachable from `SplitOrderedList::default` by a
sequence of lookup, insert and delete operations (the collaborator
outcomes ranging over everything their interfaces allow), `size` is a
power of two and at least 2, and each further operation either leaves
`size` unchanged or doubles it, so `size` never decreases. -/
theorem sol_size_power_of_two_and_monotone (ops : List SOLOp) :
    (∃ m, (sol_run ops).size = 2 ^ m) ∧ 2 ≤ (sol_run ops).size ∧
      ∀ op, (sol_step (sol_run ops) op).size = (sol_run ops).size ∨
        (sol_step (sol_run ops) op).size = 2 * (sol_run ops).size := by
  obtain ⟨m, hm⟩ := sol_run_size_pow ops
  refine ⟨⟨m + 1, hm⟩, ?_, fun op => sol_step_size_preserved_or_doubled (sol_run ops) op⟩
  rw [hm]
  calc 2 = 2 ^ 1 := rfl
    _ ≤ 2 ^ (m + 1) := Nat.pow_le_pow_right (by norm_num) (by omega)

theorem assert_valid_key_iff (k : Nat) : assert_valid_key k = true ↔ k < 2 ^ 63 := by
  unfold assert_valid_key leading_zeros
  rw [decide_eq_true_eq]
  constructor
  · intro h
    have hpos : 0 < (List.range 64).countP (fun i => decide (k < 2 ^ (63 - i))) :=
      Nat.pos_of_ne_zero h
    obtain ⟨i, _, hp⟩ := List.countP_pos_iff.mp hpos
    have hki : k < 2 ^ (63 - i) := of_decide_eq_true hp
    exact lt_of_lt_of_le hki (Nat.pow_le_pow_right (by norm_num) (by omega))
  · intro hk
    apply Nat.pos_iff_ne_zero.mp
    refine List.countP_pos_iff.mpr ⟨0, ?_, ?_⟩
    · simp
    · simpa using hk

theorem sol_lookup_assert_char (k : Nat) (s : SOLState) (f : Bool)
    (r : Option (Option Nat)) :
    is_assert_failure (sol_lookup k s f r) = !(assert_valid_key k) := by
  unfold sol_lookup
  cases h : assert_valid_key k
  · rfl
  · cases f <;> rcases r with _ | (_ | v) <;> rfl

theorem sol_insert_assert_char (k : Nat) (s : SOLState) (f io co : Bool) :
    is_assert_failure (sol_insert k s f io co) = !(assert_valid_key k) := by
  unfold sol_insert
  cases h : assert_valid_key k
  · rfl
  · cases f
    · cases io
      · rfl
      · by_cases h4 : U64 ≤ s.count + 1
        · rw [if_pos h4]; rfl
        · rw [if_neg h4]
          by_cases h5 : U64 ≤ s.size * 2
          · rw [if_pos h5]; rfl
          · rw [if_neg h5]
            by_cases h6 : s.size * 2 < s.count + 1
            · rw [if_pos h6]; cases co <;> rfl
            · rw [if_neg h6]; rfl
    · rfl

theorem sol_delete_assert_char (k : Nat) (s : SOLState) (f : Bool)
    (dr : Except Unit (Option Nat)) :
    is_assert_failure (sol_delete k s f dr) = !(assert_valid_key k) := by
  unfold sol_delete
  cases h : assert_valid_key k
  · rfl
  · cases f <;> rcases dr with e | (_ | v) <;> rfl

/-- C8: for every `usize` key, each of `lookup`, `insert` and `delete`
dies on the `assert_valid_key` assertion exactly when the key's high bit
is set (`2 ^ 63 ≤ k`); every key below `2 ^ 63` passes the check and the
operation proceeds. -/
theorem sol_ops_assert_exactly_on_high_bit (k : Nat) (hk : k < U64) (s : SOLState)
    (found insertOk casOk : Bool) (lookupRes : Option (Option Nat))
    (delRes : Except Unit (Option Nat)) :
    (is_assert_failure (sol_lookup k s found lookupRes) = true ↔ 2 ^ 63 ≤ k) ∧
      (is_assert_failure (sol_insert k s found insertOk casOk) = true ↔ 2 ^ 63 ≤ k) ∧
      (is_assert_failure (sol_delete k s found delRes) = true ↔ 2 ^ 63 ≤ k) ∧
      (k < 2 ^ 63 → assert_valid_key k = true) := by
  have hiff : (!(assert_valid_key k)) = true ↔ 2 ^ 63 ≤ k := by
    by_cases hv : k < 2 ^ 63
    · have ha : assert_valid_key k = true := (assert_valid_key_iff k).mpr hv
      rw [ha]
      constructor
      · intro hfalse
        exact absurd hfalse (by decide)
      · intro hge
        exact absurd hge (not_le.mpr hv)
    · have ha : assert_valid_key k = false := by
        cases h : assert_valid_key k
        · rfl
        · exact absurd ((assert_valid_key_iff k).mp h) hv
      rw [ha]
      exact ⟨fun _ => not_lt.mp hv, fun _ => rfl⟩
  exact ⟨by rw [sol_lookup_assert_char]; exact hiff,
    by rw [sol_insert_assert_char]; exact hiff,
    by rw [sol_delete_assert_char]; exact hiff,
    fun h => (assert_valid_key_iff k).mpr h⟩

/-- Witness for C8 at the concrete key `5`. -/
theorem sol_ops_assert_exactly_on_high_bit_witness :
    (5 < U64) ∧
      ((is_assert_failure (sol_lookup 5 sol_init true (some (some 0))) = true ↔ 2 ^ 63 ≤ 5) ∧
        (is_assert_failure (sol_insert 5 sol_init true true true) = true ↔ 2 ^ 63 ≤ 5) ∧
        (is_assert_failure (sol_delete 5 sol_init true (.ok (some 0))) = true ↔ 2 ^ 63 ≤ 5) ∧
        (5 < 2 ^ 63 → assert_valid_key 5 = true)) :=
  ⟨by decide,
    sol_ops_assert_exactly_on_high_bit 5 (by decide) sol_init true true true
      (some (some 0)) (.ok (some 0))⟩

/-- C4 (refutation): a concrete `delete` on which `find` reports the key
present but the collaborator cursor delete fails (a concurrent unlink,
allowed by the collaborator's interface): the operation returns
`Err(())` — no value — yet `count` has already been decremented from 3
to 2 by the `fetch_sub` that precedes the cursor delete. -/
theorem sol_delete_decrements_count_without_value :
    sol_delete 5 { size := 2, count := 3 } true (.error ()) =
      .ok (.error ()) { size := 2, count := 2 } := by rfl

end SplitOrdered
